import Mathlib

/-
Verification development for scripts/generate_latex_script.py of haven-pnp.

The script is a one-shot batch tool: it validates an asset directory, lists
and sorts the image files of three categories, paginates them, and emits one
LaTeX document.  The embedding below models the filesystem abstractly (a
predicate on path strings plus the raw glob listings per folder), translates
every layout function of the class LatexFileGenerator into a pure Lean
function, and represents the emitted document as a list of markup tokens:
fixed template text, image inclusions, mirrored image inclusions, and page
breaks.  Machine-irrelevant whitespace around a page break is folded into
the page-break token; everything else follows the Python source line by
line.
-/

/-! ## Python string comparison

Python sorts `str` values by code-point-lexicographic order.  The Lean core
order on `String` is defined through `String.ltb`, which does not reduce in
the kernel, so the same order is defined here directly on the character
lists of the strings. -/

/-- Code-point-lexicographic comparison of character lists, as used by
Python string comparison: a prefix is smaller than any extension of it. -/
def chars_le : List Char → List Char → Bool
  | [], _ => true
  | _ :: _, [] => false
  | a :: as, b :: bs =>
    if a < b then true
    else if b < a then false
    else chars_le as bs

/-- The order on path strings used by `list.sort()` in the script. -/
def str_le (a b : String) : Bool := chars_le a.data b.data

/-- Propositional form of `str_le`. -/
def StrLe (a b : String) : Prop := str_le a b = true

instance : DecidableRel StrLe :=
  fun a b => inferInstanceAs (Decidable (str_le a b = true))

theorem chars_le_total (a b : List Char) :
    chars_le a b = true ∨ chars_le b a = true := by
  induction a generalizing b with
  | nil => left; rfl
  | cons x xs ih =>
    cases b with
    | nil => right; rfl
    | cons y ys =>
      rcases lt_trichotomy x y with h | h | h
      · left; simp [chars_le, h]
      · subst h
        rcases ih ys with h' | h' <;> [left; right] <;>
          simp [chars_le, h', lt_irrefl]
      · right; simp [chars_le, h]

theorem chars_le_antisymm (a b : List Char)
    (h1 : chars_le a b = true) (h2 : chars_le b a = true) : a = b := by
  induction a generalizing b with
  | nil =>
    cases b with
    | nil => rfl
    | cons y ys => simp [chars_le] at h2
  | cons x xs ih =>
    cases b with
    | nil => simp [chars_le] at h1
    | cons y ys =>
      rcases lt_trichotomy x y with h | h | h
      · simp [chars_le, h, asymm h] at h2
      · subst h
        simp [chars_le, lt_irrefl] at h1 h2
        rw [ih ys h1 h2]
      · simp [chars_le, h, asymm h] at h1

theorem chars_le_trans (a b c : List Char)
    (h1 : chars_le a b = true) (h2 : chars_le b c = true) :
    chars_le a c = true := by
  induction a generalizing b c with
  | nil => rfl
  | cons x xs ih =>
    cases b with
    | nil => simp [chars_le] at h1
    | cons y ys =>
      cases c with
      | nil => simp [chars_le] at h2
      | cons z zs =>
        rcases lt_trichotomy x y with hxy | hxy | hxy
        · rcases lt_trichotomy y z with hyz | hyz | hyz
          · simp [chars_le, lt_trans hxy hyz]
          · subst hyz; simp [chars_le, hxy]
          · simp [chars_le, hyz, asymm hyz] at h2
        · subst hxy
          rcases lt_trichotomy x z with hyz | hyz | hyz
          · simp [chars_le, hyz]
          · subst hyz
            simp [chars_le, lt_irrefl] at h1 h2 ⊢
            exact ih ys zs h1 h2
          · simp [chars_le, hyz, asymm hyz] at h2
        · simp [chars_le, hxy, asymm hxy] at h1

instance : IsTotal String StrLe := ⟨fun a b => chars_le_total a.data b.data⟩

instance : IsTrans String StrLe :=
  ⟨fun _ _ _ h1 h2 => chars_le_trans _ _ _ h1 h2⟩

instance : IsAntisymm String StrLe :=
  ⟨fun _ _ h1 h2 => String.ext (chars_le_antisymm _ _ h1 h2)⟩

/-- `list.sort()` of the script: stable sort of path strings in
code-point-lexicographic order. -/
def sort_paths (l : List String) : List String := List.insertionSort StrLe l

/-! ## Path sanitisation

`LatexFileGenerator.sanitize_path` is
`p.replace("\\", "/").replace(" ", "\\ ")`.  Both patterns are single
characters, so `str.replace` acts independently on every character; the
embedding maps over the character list accordingly (core `String.replace`
does not reduce in the kernel). -/

/-- `sanitize_path`: directory separators normalised to `/`, then each
space escaped as backslash-space. -/
def sanitize_path (p : String) : String :=
  ⟨(p.data.map (fun c => if c = '\\' then '/' else c)).flatMap
     (fun c => if c = ' ' then ['\\', ' '] else [c])⟩

/-! ## Markup tokens

The generated document is modelled as a list of tokens.  `Tex.text` holds a
verbatim template chunk of the Python source (braces written `\x7b`/`\x7d`),
`Tex.img opts path` stands for `\includegraphics[opts]{path}`,
`Tex.mirrored opts path` for
`\scalebox{-1}[1]{\includegraphics[opts]{path}}`, and `Tex.clearpage` for a
`\clearpage` line together with the blank lines around it. -/

inductive Tex where
  | text (s : String) : Tex
  | img (opts path : String) : Tex
  | mirrored (opts path : String) : Tex
  | clearpage : Tex
  deriving DecidableEq, Repr

/-! ## Template chunks (verbatim from the Python string literals) -/

/-- Tail of the header after the paper-size option. -/
def header_tail : String :=
  ",notitlepage,landscape]\x7barticle\x7d\n\\usepackage\x7bgraphicx\x7d\n\\usepackage\x7bsubcaption\x7d\n\\usepackage\x7bpdflscape\x7d\n\\usepackage[space]\x7bgrffile\x7d\n\n\\pagenumbering\x7bgobble\x7d\n\n\\addtolength\x7b\\topmargin\x7d\x7b-3.4cm\x7d\n\\begin\x7bdocument\x7d\n\n"

/-- `LatexFileGenerator.header`. -/
def header (is_a4 : Bool) : String :=
  "\\documentclass[12pt," ++ (if is_a4 then "a4paper" else "letterpaper")
    ++ header_tail

/-- `LatexFileGenerator.end_document`. -/
def end_document : String := "\\end\x7bdocument\x7d"

/-- The separator emitted between two images on the same row. -/
def hspace_sep : String := "\\hspace\x7b0cm\x7d%\n"

/-- The row break emitted after a full row of cards. -/
def row_break : String := "\n\x7d\n\\makebox[\\textwidth]\x7b\n"

/-- The end of a card-page figure (the page break itself is the separate
token `Tex.clearpage`). -/
def fig_end : String := "\n\x7d\n\\end\x7bfigure\x7d\n\n"

/-- Opening of an AMD page figure. -/
def amd_fig_begin : String :=
  "\\begin\x7bfigure\x7d[ht]\n  \\centering\n\\setkeys\x7bGin\x7d\x7bwidth=6.9cm\x7d\n\\makebox[1\\textwidth]\x7b\n"

/-- Opening of the character-token row on the last AMD page. -/
def token_row_begin : String := "\n\x7d\n\\makebox[1\\textwidth]\x7b\n"

/-- Opening of an ability-card page figure; the image width depends on the
bleed setting so that trimmed cards have the same physical size. -/
def ability_fig_begin (has_bleed : Bool) : String :=
  "\\begin\x7bfigure\x7d[ht]\n  \\centering\n\\setkeys\x7bGin\x7d\x7bwidth="
    ++ (if has_bleed then "6.99cm" else "6.35cm")
    ++ "\x7d\n\\makebox[1\\textwidth]\x7b\n"

/-- Opening of a character-sheet or character-mat figure. -/
def plain_fig_begin : String :=
  "\\begin\x7bfigure\x7d[ht]\n\\centering\n\\makebox[1\\textwidth]\x7b\n"

/-- Text between the mat-front image and the mini image. -/
def mat_fig1_mid : String :=
  "\\hspace\x7b0cm\x7d%\n\x7d\n\\makebox[1\\textwidth]\x7b\n\t"

/-- Text between the mat-back image and the mirrored mini image. -/
def mat_fig2_mid : String := "%\n\x7d\n\\makebox[1\\textwidth]\x7b\n"

/-- Text after the mirrored mini image. -/
def mat_fig2_end : String :=
  "\\hspace\x7b0cm\x7d%\n\x7d\n\\end\x7bfigure\x7d\n\n"

/-! ## Layout emitters -/

/-- `self.rotate_amd_cards`, hardcoded `True` in `__init__`. -/
def rotate_amd_cards : Bool := true

/-- The `cards_per_line` local of `ability_cards` and
`ability_cards_one_page`: 4 normally, 3 for US-Letter paper with bleed. -/
def cards_per_line (is_a4 has_bleed : Bool) : Nat :=
  if !is_a4 && has_bleed then 3 else 4

/-- Figure content of `ability_cards_one_page` (everything before the final
`\clearpage`): the loop walks the cards with their indices, appending a
separator between cards on the same row and a row break after the
`cards_per_line`-th card. -/
def ability_page_body (is_a4 has_bleed : Bool) (card_paths : List String) :
    List Tex :=
  [Tex.text (ability_fig_begin has_bleed)]
    ++ card_paths.enum.flatMap (fun ip =>
        [Tex.img "" ip.2]
          ++ (if ip.1 ≠ card_paths.length - 1 ∧
                 ip.1 ≠ cards_per_line is_a4 has_bleed - 1 then
                [Tex.text hspace_sep] else [])
          ++ (if ip.1 = cards_per_line is_a4 has_bleed - 1 then
                [Tex.text row_break] else []))
    ++ [Tex.text fig_end]

/-- `LatexFileGenerator.ability_cards_one_page`. -/
def ability_cards_one_page (is_a4 has_bleed : Bool)
    (card_paths : List String) : List Tex :=
  ability_page_body is_a4 has_bleed card_paths ++ [Tex.clearpage]

/-- The page slices taken by the loop of `ability_cards`:
`card_paths[2*cards_per_line*i : 2*cards_per_line*(i+1)]` for
`i in range(len(card_paths) // (2*cards_per_line) + 1)`. -/
def ability_card_pages (is_a4 has_bleed : Bool) (card_paths : List String) :
    List (List String) :=
  (List.range (card_paths.length / (2 * cards_per_line is_a4 has_bleed) + 1)).map
    (fun i =>
      (card_paths.drop (2 * cards_per_line is_a4 has_bleed * i)).take
        (2 * cards_per_line is_a4 has_bleed))

/-- `LatexFileGenerator.ability_cards`: each page of cards is followed by a
page of the shared back plate repeated once per card on the page. -/
def ability_cards (is_a4 has_bleed : Bool) (card_paths : List String)
    (ability_card_back : String) : List Tex :=
  (ability_card_pages is_a4 has_bleed card_paths).flatMap
    (fun cards_in_page =>
      ability_cards_one_page is_a4 has_bleed cards_in_page
        ++ ability_cards_one_page is_a4 has_bleed
            (List.replicate cards_in_page.length ability_card_back))

/-- Figure content of `amd_cards_one_page` (everything before the final
`\clearpage`): up to 10 cards in two rows of 5, optionally followed by the
character-token row (5 pairs of a token and its mirrored copy). -/
def amd_page_body (rotate : Bool) (amd_paths : List String)
    (token_path : Option String) : List Tex :=
  let add_rotation := if rotate then "angle=90, " else ""
  [Tex.text amd_fig_begin]
    ++ amd_paths.enum.flatMap (fun ip =>
        [Tex.img (add_rotation ++ "width=4.4cm") ip.2]
          ++ (if ip.1 ≠ amd_paths.length - 1 ∧ ip.1 ≠ 4 then
                [Tex.text hspace_sep] else [])
          ++ (if ip.1 = 4 then [Tex.text row_break] else []))
    ++ (match token_path with
        | none => []
        | some tp =>
          [Tex.text token_row_begin]
            ++ (List.range 5).flatMap (fun i =>
                [Tex.img "width=1.45cm" tp, Tex.text hspace_sep,
                 Tex.mirrored "width=1.45cm" tp]
                  ++ (if i ≠ 9 then [Tex.text hspace_sep] else [])))
    ++ [Tex.text fig_end]

/-- `LatexFileGenerator.amd_cards_one_page`. -/
def amd_cards_one_page (rotate : Bool) (amd_paths : List String)
    (token_path : Option String) : List Tex :=
  amd_page_body rotate amd_paths token_path ++ [Tex.clearpage]

/-- The `cards_per_page` local of `amd_cards`. -/
def cards_per_page_amd : Nat := 10

/-- The `num_pages` local of `amd_cards`: ceiling division
`(n + cards_per_page - 1) // cards_per_page`. -/
def amd_num_pages (n : Nat) : Nat :=
  (n + cards_per_page_amd - 1) / cards_per_page_amd

/-- The page slices taken by the loop of `amd_cards`. -/
def amd_card_pages (amd_paths : List String) : List (List String) :=
  (List.range (amd_num_pages amd_paths.length)).map
    (fun i =>
      (amd_paths.drop (cards_per_page_amd * i)).take cards_per_page_amd)

/-- `LatexFileGenerator.amd_cards`: every page but the last is emitted
without tokens; the last page also receives the character tokens. -/
def amd_cards (amd_paths : List String) (character_token_path : String) :
    List Tex :=
  let num_pages := amd_num_pages amd_paths.length
  (List.range num_pages).flatMap (fun i =>
    let amds_in_page :=
      (amd_paths.drop (cards_per_page_amd * i)).take cards_per_page_amd
    if i ≠ num_pages - 1 then
      amd_cards_one_page rotate_amd_cards amds_in_page none
    else
      amd_cards_one_page rotate_amd_cards amds_in_page
        (some character_token_path))

/-- `LatexFileGenerator.character_mat`: mat front with the mini below, page
break, mat back with the horizontally mirrored mini below, page break. -/
def character_mat (mat_front_path mat_back_path characer_mini_path : String) :
    List Tex :=
  [Tex.text plain_fig_begin,
   Tex.img "width=14.5cm,height=9.5cm" mat_front_path,
   Tex.text mat_fig1_mid,
   Tex.img "width=4cm" characer_mini_path,
   Tex.text fig_end,
   Tex.clearpage,
   Tex.text plain_fig_begin,
   Tex.img "width=14.5cm,height=9.5cm" mat_back_path,
   Tex.text mat_fig2_mid,
   Tex.mirrored "width=4cm" characer_mini_path,
   Tex.text mat_fig2_end,
   Tex.clearpage]

/-- `LatexFileGenerator.character_sheet`: a page break, then the sheet shown
twice side by side; the whole fragment is emitted twice (`res + res`, the
back being identical to the front for now). -/
def character_sheet (path_to_sheet : String) : List Tex :=
  let res :=
    [Tex.clearpage,
     Tex.text plain_fig_begin,
     Tex.img "height=14cm" path_to_sheet,
     Tex.text hspace_sep,
     Tex.img "height=14cm" path_to_sheet,
     Tex.text fig_end]
  res ++ res

/-! ## Filesystem model, validation and the generator -/

/-- The filesystem facts the script consumes: an existence predicate on
path strings, the raw glob listings of the three card folders (`*.jpg`
results followed by `*.png` results, in arbitrary order inside each), the
root directory and the two CLI flags. -/
structure Env where
  fs : String → Bool
  root : String
  ability_jpg : List String
  ability_png : List String
  amd_jpg : List String
  amd_png : List String
  non_amd_jpg : List String
  non_amd_png : List String
  is_a4 : Bool
  has_bleed : Bool

/-- The `.jpg`-preferring resolution used for every singleton asset:
`root/name.jpg` if it exists, else `root/name.png`. -/
def resolve_asset (fs : String → Bool) (root name : String) : String :=
  if fs (root ++ "/" ++ name ++ ".jpg") then root ++ "/" ++ name ++ ".jpg"
  else root ++ "/" ++ name ++ ".png"

/-- The eight singleton assets checked by `check_root_dir_consistency`. -/
def singleton_assets : List String :=
  ["ability_card_back", "amd_back", "non_amd_back", "character_token",
   "character_mat", "character_mat_back", "character_mini",
   "character_sheet"]

/-- The singleton-file loop of `check_root_dir_consistency`: the first
name missing under both extensions raises. -/
def check_singletons (fs : String → Bool) (root : String) :
    List String → Except String Unit
  | [] => Except.ok ()
  | name :: rest =>
    if !fs (root ++ "/" ++ name ++ ".jpg")
        && !fs (root ++ "/" ++ name ++ ".png") then
      Except.error ("Missing file " ++ name ++ " (JPG or PNG format) in "
        ++ root)
    else check_singletons fs root rest

/-- `LatexFileGenerator.check_root_dir_consistency` (the raised
`ValueError` plays the role the design calls `MissingAssetError`). -/
def check_root_dir_consistency (fs : String → Bool) (root : String) :
    Except String Unit :=
  if !fs (root ++ "/AbilityCards") then
    Except.error ("Missing folder with the name AbilityCards in " ++ root)
  else if !fs (root ++ "/AMD") then
    Except.error ("Missing folder with the name AMD in " ++ root)
  else check_singletons fs root singleton_assets

/-- The sorted, sanitised ability-card paths (`card_paths` local). -/
def card_paths (env : Env) : List String :=
  (sort_paths (env.ability_jpg ++ env.ability_png)).map sanitize_path

/-- The sanitised ability-card back plate (`card_back_path` local). -/
def ability_back_path (env : Env) : String :=
  sanitize_path (resolve_asset env.fs env.root "ability_card_back")

/-- The sorted AMD front paths (`amd_paths` local, before sanitising). -/
def amd_front_paths (env : Env) : List String :=
  sort_paths (env.amd_jpg ++ env.amd_png)

/-- The sorted NON_AMD front paths (`non_amd_paths` local). -/
def non_amd_front_paths (env : Env) : List String :=
  sort_paths (env.non_amd_jpg ++ env.non_amd_png)

/-- The combined, sanitised AMD-category sequence handed to `amd_cards`:
`[sanitize_path(p) for p in all_amd + all_backs]` where
`all_amd = amd_paths + non_amd_paths` and
`all_backs = amd_backs + non_amd_backs`. -/
def all_amd_cards (env : Env) : List String :=
  ((amd_front_paths env ++ non_amd_front_paths env)
      ++ ((amd_front_paths env).map
            (fun _ => resolve_asset env.fs env.root "amd_back")
          ++ (non_amd_front_paths env).map
            (fun _ => resolve_asset env.fs env.root "non_amd_back"))).map
    sanitize_path

/-- The sanitised character-token path (`token_path` local). -/
def token_path (env : Env) : String :=
  sanitize_path (resolve_asset env.fs env.root "character_token")

/-- The sanitised character-mat front path. -/
def mat_path (env : Env) : String :=
  sanitize_path (resolve_asset env.fs env.root "character_mat")

/-- The sanitised character-mat back path. -/
def mat_back_path (env : Env) : String :=
  sanitize_path (resolve_asset env.fs env.root "character_mat_back")

/-- The sanitised character-mini path. -/
def mini_path (env : Env) : String :=
  sanitize_path (resolve_asset env.fs env.root "character_mini")

/-- The sanitised character-sheet path (`sheet` local). -/
def sheet_path (env : Env) : String :=
  sanitize_path (resolve_asset env.fs env.root "character_sheet")

/-- `LatexFileGenerator.generate_latex_file`: header, ability cards,
AMD-category cards, character mat and mini, character sheet, document
end. -/
def generate_latex_file (env : Env) : List Tex :=
  [Tex.text (header env.is_a4)]
    ++ ability_cards env.is_a4 env.has_bleed (card_paths env)
        (ability_back_path env)
    ++ amd_cards (all_amd_cards env) (token_path env)
    ++ character_mat (mat_path env) (mat_back_path env) (mini_path env)
    ++ character_sheet (sheet_path env)
    ++ [Tex.text end_document]

/-- The whole run: `__init__` validates the root directory eagerly; only
when validation passes is the document generated and written to the output
path.  An error therefore means nothing is written. -/
def run_generator (env : Env) : Except String (List Tex) :=
  match check_root_dir_consistency env.fs env.root with
  | Except.error e => Except.error e
  | Except.ok _ => Except.ok (generate_latex_file env)

/-! ## Observers on emitted markup -/

/-- The embedded image path of a token, mirrored or not. -/
def imgSrc : Tex → Option String
  | Tex.img _ p => some p
  | Tex.mirrored _ p => some p
  | _ => none

/-- All image paths embedded in a fragment, in emission order (mirrored
inclusions included). -/
def image_paths (d : List Tex) : List String := d.filterMap imgSrc

/-- The paths of the non-mirrored image inclusions of a fragment. -/
def plain_images (d : List Tex) : List String :=
  d.filterMap (fun t => match t with | Tex.img _ p => some p | _ => none)

/-- The paths of the mirrored image inclusions of a fragment. -/
def mirrored_images (d : List Tex) : List String :=
  d.filterMap (fun t => match t with | Tex.mirrored _ p => some p | _ => none)

/-- The image tokens of a fragment that show the path `p`. -/
def images_of (p : String) (d : List Tex) : List Tex :=
  d.filter (fun t => imgSrc t = some p)

/-- Splits a token stream at `Tex.clearpage` tokens: the contents of the
physical pages, with one trailing (possibly empty) chunk after the last
page break. -/
def texPages : List Tex → List (List Tex)
  | [] => [[]]
  | t :: ts =>
    if t = Tex.clearpage then [] :: texPages ts
    else
      match texPages ts with
      | [] => [[t]]
      | pg :: pgs => (t :: pg) :: pgs

/-- The names whose assets are missing, in the order the validation of
`check_root_dir_consistency` inspects them. -/
def missing_assets (fs : String → Bool) (root : String) : List String :=
  (if fs (root ++ "/AbilityCards") then [] else ["AbilityCards"])
    ++ (if fs (root ++ "/AMD") then [] else ["AMD"])
    ++ singleton_assets.filter (fun name =>
        !fs (root ++ "/" ++ name ++ ".jpg")
          && !fs (root ++ "/" ++ name ++ ".png"))

/-! ## Basic facts about the observers -/

theorem flatMap_singleton_map {α β : Type} (l : List α) (f : α → β) :
    l.flatMap (fun a => [f a]) = l.map f := by
  induction l with
  | nil => rfl
  | cons x xs ih => simp [List.flatMap_cons, ih]

theorem image_paths_append (a b : List Tex) :
    image_paths (a ++ b) = image_paths a ++ image_paths b :=
  List.filterMap_append a b imgSrc

theorem plain_images_append (a b : List Tex) :
    plain_images (a ++ b) = plain_images a ++ plain_images b :=
  List.filterMap_append a b _

theorem mirrored_images_append (a b : List Tex) :
    mirrored_images (a ++ b) = mirrored_images a ++ mirrored_images b :=
  List.filterMap_append a b _

theorem image_paths_text (s : String) : image_paths [Tex.text s] = [] := rfl

theorem image_paths_clearpage : image_paths [Tex.clearpage] = [] := rfl

/-! ## Images emitted by each page emitter -/

theorem image_paths_ability_page_body (a4 bl : Bool) (ps : List String) :
    image_paths (ability_page_body a4 bl ps) = ps := by
  unfold ability_page_body image_paths
  rw [List.filterMap_append, List.filterMap_append, List.filterMap_flatMap]
  have h : ps.enum.flatMap (fun ip =>
      List.filterMap imgSrc ([Tex.img "" ip.2]
        ++ (if ip.1 ≠ ps.length - 1 ∧ ip.1 ≠ cards_per_line a4 bl - 1 then
              [Tex.text hspace_sep] else [])
        ++ (if ip.1 = cards_per_line a4 bl - 1 then
              [Tex.text row_break] else []))) =
      ps.enum.flatMap (fun ip => [ip.2]) := by
    apply List.flatMap_congr
    intro ip _
    rw [List.filterMap_append, List.filterMap_append]
    have h1 : List.filterMap imgSrc
        (if ip.1 ≠ ps.length - 1 ∧ ip.1 ≠ cards_per_line a4 bl - 1 then
          [Tex.text hspace_sep] else []) = [] := by
      split <;> rfl
    have h2 : List.filterMap imgSrc
        (if ip.1 = cards_per_line a4 bl - 1 then
          [Tex.text row_break] else []) = [] := by
      split <;> rfl
    rw [h1, h2]
    rfl
  rw [h, flatMap_singleton_map, List.enum_map_snd]
  simp [imgSrc]

theorem plain_images_ability_page_body (a4 bl : Bool) (ps : List String) :
    plain_images (ability_page_body a4 bl ps) = ps := by
  unfold ability_page_body plain_images
  rw [List.filterMap_append, List.filterMap_append, List.filterMap_flatMap]
  have h : ps.enum.flatMap (fun ip =>
      List.filterMap
        (fun t => match t with | Tex.img _ p => some p | _ => none)
        ([Tex.img "" ip.2]
          ++ (if ip.1 ≠ ps.length - 1 ∧ ip.1 ≠ cards_per_line a4 bl - 1 then
                [Tex.text hspace_sep] else [])
          ++ (if ip.1 = cards_per_line a4 bl - 1 then
                [Tex.text row_break] else []))) =
      ps.enum.flatMap (fun ip => [ip.2]) := by
    apply List.flatMap_congr
    intro ip _
    rw [List.filterMap_append, List.filterMap_append]
    have h1 : List.filterMap
        (fun t => match t with | Tex.img _ p => some p | _ => none)
        (if ip.1 ≠ ps.length - 1 ∧ ip.1 ≠ cards_per_line a4 bl - 1 then
          [Tex.text hspace_sep] else []) = [] := by
      split <;> rfl
    have h2 : List.filterMap
        (fun t => match t with | Tex.img _ p => some p | _ => none)
        (if ip.1 = cards_per_line a4 bl - 1 then
          [Tex.text row_break] else []) = [] := by
      split <;> rfl
    rw [h1, h2]
    rfl
  rw [h, flatMap_singleton_map, List.enum_map_snd]
  simp [imgSrc]

theorem mirrored_images_ability_page_body (a4 bl : Bool) (ps : List String) :
    mirrored_images (ability_page_body a4 bl ps) = [] := by
  unfold ability_page_body mirrored_images
  rw [List.filterMap_append, List.filterMap_append, List.filterMap_flatMap]
  have h : ps.enum.flatMap (fun ip =>
      List.filterMap
        (fun t => match t with | Tex.mirrored _ p => some p | _ => none)
        ([Tex.img "" ip.2]
          ++ (if ip.1 ≠ ps.length - 1 ∧ ip.1 ≠ cards_per_line a4 bl - 1 then
                [Tex.text hspace_sep] else [])
          ++ (if ip.1 = cards_per_line a4 bl - 1 then
                [Tex.text row_break] else []))) =
      ps.enum.flatMap (fun _ => ([] : List String)) := by
    apply List.flatMap_congr
    intro ip _
    rw [List.filterMap_append, List.filterMap_append]
    have h1 : List.filterMap
        (fun t => match t with | Tex.mirrored _ p => some p | _ => none)
        (if ip.1 ≠ ps.length - 1 ∧ ip.1 ≠ cards_per_line a4 bl - 1 then
          [Tex.text hspace_sep] else []) = [] := by
      split <;> rfl
    have h2 : List.filterMap
        (fun t => match t with | Tex.mirrored _ p => some p | _ => none)
        (if ip.1 = cards_per_line a4 bl - 1 then
          [Tex.text row_break] else []) = [] := by
      split <;> rfl
    rw [h1, h2]
    rfl
  rw [h]
  simp

theorem filterMap_text_ite {β : Type} (f : Tex → Option β)
    (hf : ∀ s, f (Tex.text s) = none) (c : Prop) [Decidable c] (s : String) :
    List.filterMap f (if c then [Tex.text s] else []) = [] := by
  split
  · simp [List.filterMap_cons, hf]
  · rfl

theorem image_paths_amd_page_body (rot : Bool) (ps : List String)
    (tok : Option String) :
    image_paths (amd_page_body rot ps tok) =
      ps ++ (match tok with
             | none => []
             | some tp => List.replicate 10 tp) := by
  simp only [amd_page_body, image_paths]
  rw [List.filterMap_append, List.filterMap_append, List.filterMap_append,
      List.filterMap_flatMap]
  have h : ps.enum.flatMap (fun ip => List.filterMap imgSrc
      ([Tex.img ((if rot then "angle=90, " else "") ++ "width=4.4cm") ip.2]
        ++ (if ip.1 ≠ ps.length - 1 ∧ ip.1 ≠ 4 then
              [Tex.text hspace_sep] else [])
        ++ (if ip.1 = 4 then [Tex.text row_break] else []))) =
      ps.enum.flatMap (fun ip => [ip.2]) := by
    apply List.flatMap_congr
    intro ip _
    rw [List.filterMap_append, List.filterMap_append,
        filterMap_text_ite _ (fun _ => rfl), filterMap_text_ite _ (fun _ => rfl)]
    rfl
  rw [h, flatMap_singleton_map, List.enum_map_snd]
  cases tok with
  | none => simp [imgSrc]
  | some tp =>
    have htok : List.filterMap imgSrc
        ([Tex.text token_row_begin]
          ++ (List.range 5).flatMap (fun i =>
              [Tex.img "width=1.45cm" tp, Tex.text hspace_sep,
               Tex.mirrored "width=1.45cm" tp]
                ++ (if i ≠ 9 then [Tex.text hspace_sep] else []))) =
        List.replicate 10 tp := by rfl
    rw [htok]
    simp [imgSrc]

theorem plain_images_amd_page_body (rot : Bool) (ps : List String)
    (tok : Option String) :
    plain_images (amd_page_body rot ps tok) =
      ps ++ (match tok with
             | none => []
             | some tp => List.replicate 5 tp) := by
  simp only [amd_page_body, plain_images]
  rw [List.filterMap_append, List.filterMap_append, List.filterMap_append,
      List.filterMap_flatMap]
  have h : ps.enum.flatMap (fun ip => List.filterMap
      (fun t => match t with | Tex.img _ p => some p | _ => none)
      ([Tex.img ((if rot then "angle=90, " else "") ++ "width=4.4cm") ip.2]
        ++ (if ip.1 ≠ ps.length - 1 ∧ ip.1 ≠ 4 then
              [Tex.text hspace_sep] else [])
        ++ (if ip.1 = 4 then [Tex.text row_break] else []))) =
      ps.enum.flatMap (fun ip => [ip.2]) := by
    apply List.flatMap_congr
    intro ip _
    rw [List.filterMap_append, List.filterMap_append,
        filterMap_text_ite _ (fun _ => rfl), filterMap_text_ite _ (fun _ => rfl)]
    rfl
  rw [h, flatMap_singleton_map, List.enum_map_snd]
  cases tok with
  | none => simp
  | some tp =>
    have htok : List.filterMap
        (fun t => match t with | Tex.img _ p => some p | _ => none)
        ([Tex.text token_row_begin]
          ++ (List.range 5).flatMap (fun i =>
              [Tex.img "width=1.45cm" tp, Tex.text hspace_sep,
               Tex.mirrored "width=1.45cm" tp]
                ++ (if i ≠ 9 then [Tex.text hspace_sep] else []))) =
        List.replicate 5 tp := by rfl
    rw [htok]
    simp

theorem mirrored_images_amd_page_body (rot : Bool) (ps : List String)
    (tok : Option String) :
    mirrored_images (amd_page_body rot ps tok) =
      (match tok with
       | none => []
       | some tp => List.replicate 5 tp) := by
  simp only [amd_page_body, mirrored_images]
  rw [List.filterMap_append, List.filterMap_append, List.filterMap_append,
      List.filterMap_flatMap]
  have h : ps.enum.flatMap (fun ip => List.filterMap
      (fun t => match t with | Tex.mirrored _ p => some p | _ => none)
      ([Tex.img ((if rot then "angle=90, " else "") ++ "width=4.4cm") ip.2]
        ++ (if ip.1 ≠ ps.length - 1 ∧ ip.1 ≠ 4 then
              [Tex.text hspace_sep] else [])
        ++ (if ip.1 = 4 then [Tex.text row_break] else []))) =
      ps.enum.flatMap (fun _ => ([] : List String)) := by
    apply List.flatMap_congr
    intro ip _
    rw [List.filterMap_append, List.filterMap_append,
        filterMap_text_ite _ (fun _ => rfl), filterMap_text_ite _ (fun _ => rfl)]
    rfl
  rw [h]
  cases tok with
  | none => simp
  | some tp =>
    have htok : List.filterMap
        (fun t => match t with | Tex.mirrored _ p => some p | _ => none)
        ([Tex.text token_row_begin]
          ++ (List.range 5).flatMap (fun i =>
              [Tex.img "width=1.45cm" tp, Tex.text hspace_sep,
               Tex.mirrored "width=1.45cm" tp]
                ++ (if i ≠ 9 then [Tex.text hspace_sep] else []))) =
        List.replicate 5 tp := by rfl
    rw [htok]
    simp

theorem plain_images_character_mat (a b c : String) :
    plain_images (character_mat a b c) = [a, c, b] := rfl

theorem mirrored_images_character_mat (a b c : String) :
    mirrored_images (character_mat a b c) = [c] := rfl

theorem image_paths_character_mat (a b c : String) :
    image_paths (character_mat a b c) = [a, c, b, c] := rfl

theorem plain_images_character_sheet (p : String) :
    plain_images (character_sheet p) = [p, p, p, p] := rfl

theorem mirrored_images_character_sheet (p : String) :
    mirrored_images (character_sheet p) = [] := rfl

theorem image_paths_character_sheet (p : String) :
    image_paths (character_sheet p) = [p, p, p, p] := rfl

/-! ## Slicing covers the whole sequence -/

theorem flatten_chunks {α : Type} (C k : Nat) (l : List α)
    (h : l.length ≤ C * k) :
    ((List.range k).map (fun i => (l.drop (C * i)).take C)).flatten = l := by
  induction k generalizing l with
  | zero =>
    have hl : l = [] := List.eq_nil_of_length_eq_zero (by omega)
    subst hl
    rfl
  | succ k ih =>
    rw [List.range_succ_eq_map, List.map_cons, List.map_map]
    have htail :
        List.map ((fun i => (l.drop (C * i)).take C) ∘ Nat.succ)
            (List.range k)
          = (List.range k).map (fun i => ((l.drop C).drop (C * i)).take C) := by
      apply List.map_congr_left
      intro i _
      have hCi : C * Nat.succ i = C + C * i := by
        rw [Nat.succ_eq_add_one, Nat.mul_succ, Nat.add_comm]
      simp [Function.comp, List.drop_drop, hCi, Nat.add_comm]
    have hlen : (l.drop C).length ≤ C * k := by
      rw [List.length_drop]
      have := h
      rw [Nat.mul_succ] at this
      omega
    rw [htail, List.flatten_cons, ih (l.drop C) hlen]
    simp

/-! ## Page-break structure of the emitted markup -/

theorem texPages_cons (t : Tex) (ts : List Tex) :
    texPages (t :: ts) =
      if t = Tex.clearpage then [] :: texPages ts
      else
        match texPages ts with
        | [] => [[t]]
        | pg :: pgs => (t :: pg) :: pgs := rfl

theorem texPages_append_body (c r : List Tex) (hc : Tex.clearpage ∉ c) :
    texPages (c ++ Tex.clearpage :: r) = c :: texPages r := by
  induction c with
  | nil => simp [texPages]
  | cons t ts ih =>
    have ht : ¬t = Tex.clearpage := by
      intro h
      exact hc (h ▸ List.mem_cons_self t ts)
    have hts : Tex.clearpage ∉ ts := fun h => hc (List.mem_cons_of_mem _ h)
    rw [List.cons_append, texPages_cons, if_neg ht, ih hts]

theorem texPages_flatMap_body {α : Type} (l : List α) (g : α → List Tex)
    (hg : ∀ a ∈ l, Tex.clearpage ∉ g a) :
    texPages (l.flatMap (fun a => g a ++ [Tex.clearpage])) =
      l.map g ++ [[]] := by
  induction l with
  | nil => rfl
  | cons x xs ih =>
    rw [List.flatMap_cons, List.append_assoc, List.singleton_append,
        texPages_append_body _ _ (hg x (List.mem_cons_self x xs))]
    rw [ih (fun a ha => hg a (List.mem_cons_of_mem _ ha))]
    rfl

theorem clearpage_not_mem_ability_page_body (a4 bl : Bool)
    (ps : List String) :
    Tex.clearpage ∉ ability_page_body a4 bl ps := by
  simp [ability_page_body, List.mem_ite_nil_right]

theorem clearpage_not_mem_amd_page_body (rot : Bool) (ps : List String)
    (tok : Option String) :
    Tex.clearpage ∉ amd_page_body rot ps tok := by
  cases tok <;> simp [amd_page_body, List.mem_ite_nil_right]

theorem texPages_flatMap_id (L : List (List Tex))
    (h : ∀ c ∈ L, Tex.clearpage ∉ c) :
    texPages (L.flatMap (fun c => c ++ [Tex.clearpage])) = L ++ [[]] := by
  have hx := texPages_flatMap_body L (fun c => c) h
  simpa using hx

theorem ability_cards_eq_body_form (a4 bl : Bool) (ps : List String)
    (back : String) :
    ability_cards a4 bl ps back =
      ((ability_card_pages a4 bl ps).flatMap (fun pg =>
          [ability_page_body a4 bl pg,
           ability_page_body a4 bl (List.replicate pg.length back)])).flatMap
        (fun c => c ++ [Tex.clearpage]) := by
  unfold ability_cards ability_cards_one_page
  rw [List.flatMap_assoc]
  apply List.flatMap_congr
  intro pg _
  simp

theorem texPages_ability_cards (a4 bl : Bool) (ps : List String)
    (back : String) :
    texPages (ability_cards a4 bl ps back) =
      (ability_card_pages a4 bl ps).flatMap (fun pg =>
        [ability_page_body a4 bl pg,
         ability_page_body a4 bl (List.replicate pg.length back)]) ++ [[]] := by
  rw [ability_cards_eq_body_form, texPages_flatMap_id]
  intro c hc
  rcases List.mem_flatMap.mp hc with ⟨pg, _, hm⟩
  simp only [List.mem_cons, List.not_mem_nil, or_false] at hm
  rcases hm with h | h
  · exact h ▸ clearpage_not_mem_ability_page_body a4 bl pg
  · exact h ▸ clearpage_not_mem_ability_page_body a4 bl _

theorem amd_cards_eq_body_form (cards : List String) (tp : String) :
    amd_cards cards tp =
      ((List.range (amd_num_pages cards.length)).map (fun i =>
          if i ≠ amd_num_pages cards.length - 1 then
            amd_page_body rotate_amd_cards
              ((cards.drop (cards_per_page_amd * i)).take cards_per_page_amd)
              none
          else
            amd_page_body rotate_amd_cards
              ((cards.drop (cards_per_page_amd * i)).take cards_per_page_amd)
              (some tp))).flatMap (fun c => c ++ [Tex.clearpage]) := by
  unfold amd_cards amd_cards_one_page
  rw [List.flatMap_map]
  apply List.flatMap_congr
  intro i _
  by_cases h : i ≠ amd_num_pages cards.length - 1 <;> simp [h]

theorem texPages_amd_cards (cards : List String) (tp : String) :
    texPages (amd_cards cards tp) =
      (List.range (amd_num_pages cards.length)).map (fun i =>
        if i ≠ amd_num_pages cards.length - 1 then
          amd_page_body rotate_amd_cards
            ((cards.drop (cards_per_page_amd * i)).take cards_per_page_amd)
            none
        else
          amd_page_body rotate_amd_cards
            ((cards.drop (cards_per_page_amd * i)).take cards_per_page_amd)
            (some tp)) ++ [[]] := by
  rw [amd_cards_eq_body_form, texPages_flatMap_id]
  intro c hc
  rcases List.mem_map.mp hc with ⟨i, _, hm⟩
  by_cases h : i ≠ amd_num_pages cards.length - 1
  · rw [if_pos h] at hm
    exact hm ▸ clearpage_not_mem_amd_page_body _ _ _
  · rw [if_neg h] at hm
    exact hm ▸ clearpage_not_mem_amd_page_body _ _ _

/-- Generic computation of a `filterMap` observer over the whole
AMD-category emission: pages before the last contribute `u` of their card
slice, the last page additionally contributes `w` (the token row). -/
theorem filterMap_amd_cards {β : Type} (f : Tex → Option β) (tp : String)
    (u : List String → List β) (w : List β)
    (hnone : ∀ s, List.filterMap f
      (amd_cards_one_page rotate_amd_cards s none) = u s)
    (hsome : ∀ s, List.filterMap f
      (amd_cards_one_page rotate_amd_cards s (some tp)) = u s ++ w)
    (cards : List String) :
    List.filterMap f (amd_cards cards tp) =
      ((List.range (amd_num_pages cards.length)).map (fun i =>
          u ((cards.drop (cards_per_page_amd * i)).take
              cards_per_page_amd))).flatten
        ++ (if cards.length = 0 then [] else w) := by
  by_cases hn : cards.length = 0
  · have hc : cards = [] := List.eq_nil_of_length_eq_zero hn
    subst hc
    simp [amd_cards, amd_num_pages, cards_per_page_amd]
  · obtain ⟨m, hm⟩ : ∃ m, amd_num_pages cards.length = m + 1 := by
      refine ⟨amd_num_pages cards.length - 1, ?_⟩
      have h1 : 1 ≤ amd_num_pages cards.length := by
        unfold amd_num_pages cards_per_page_amd
        omega
      omega
    simp only [amd_cards]
    rw [List.filterMap_flatMap, hm, List.range_succ, List.flatMap_append,
        if_neg hn]
    have h1 : (List.range m).flatMap (fun i =>
        List.filterMap f
          (if i ≠ m + 1 - 1 then
            amd_cards_one_page rotate_amd_cards
              ((cards.drop (cards_per_page_amd * i)).take cards_per_page_amd)
              none
          else
            amd_cards_one_page rotate_amd_cards
              ((cards.drop (cards_per_page_amd * i)).take cards_per_page_amd)
              (some tp))) =
        ((List.range m).map (fun i =>
          u ((cards.drop (cards_per_page_amd * i)).take
              cards_per_page_amd))).flatten := by
      rw [← List.flatMap_def]
      apply List.flatMap_congr
      intro i hi
      have hilt : i < m := List.mem_range.mp hi
      rw [if_pos (by omega), hnone]
    have h2 : ([m] : List Nat).flatMap (fun i =>
        List.filterMap f
          (if i ≠ m + 1 - 1 then
            amd_cards_one_page rotate_amd_cards
              ((cards.drop (cards_per_page_amd * i)).take cards_per_page_amd)
              none
          else
            amd_cards_one_page rotate_amd_cards
              ((cards.drop (cards_per_page_amd * i)).take cards_per_page_amd)
              (some tp))) =
        u ((cards.drop (cards_per_page_amd * m)).take cards_per_page_amd)
          ++ w := by
      rw [List.flatMap_singleton, if_neg (by omega), hsome]
    rw [h1, h2, List.map_append, List.flatten_append]
    simp [List.append_assoc]

theorem flatten_nil_map {α β : Type} (l : List α) :
    (l.map (fun _ => ([] : List β))).flatten = [] := by
  induction l with
  | nil => rfl
  | cons x xs ih => simp [ih]

theorem filterMap_imgSrc_amd_one_page (tok : Option String)
    (s : List String) :
    List.filterMap imgSrc (amd_cards_one_page rotate_amd_cards s tok) =
      s ++ (match tok with
            | none => []
            | some tp => List.replicate 10 tp) := by
  unfold amd_cards_one_page
  rw [List.filterMap_append]
  have h := image_paths_amd_page_body rotate_amd_cards s tok
  unfold image_paths at h
  rw [h]
  cases tok <;> simp [imgSrc]

theorem filterMap_plain_amd_one_page (tok : Option String)
    (s : List String) :
    List.filterMap (fun t => match t with | Tex.img _ p => some p | _ => none)
      (amd_cards_one_page rotate_amd_cards s tok) =
      s ++ (match tok with
            | none => []
            | some tp => List.replicate 5 tp) := by
  unfold amd_cards_one_page
  rw [List.filterMap_append]
  have h := plain_images_amd_page_body rotate_amd_cards s tok
  unfold plain_images at h
  rw [h]
  cases tok <;> simp

theorem filterMap_mirrored_amd_one_page (tok : Option String)
    (s : List String) :
    List.filterMap
      (fun t => match t with | Tex.mirrored _ p => some p | _ => none)
      (amd_cards_one_page rotate_amd_cards s tok) =
      (match tok with
       | none => []
       | some tp => List.replicate 5 tp) := by
  unfold amd_cards_one_page
  rw [List.filterMap_append]
  have h := mirrored_images_amd_page_body rotate_amd_cards s tok
  unfold mirrored_images at h
  rw [h]
  cases tok <;> simp

theorem image_paths_amd_cards (cards : List String) (tp : String) :
    image_paths (amd_cards cards tp) =
      cards ++ if cards.length = 0 then [] else List.replicate 10 tp := by
  unfold image_paths
  rw [filterMap_amd_cards imgSrc tp (fun s => s) (List.replicate 10 tp)
      (fun s => by simpa using filterMap_imgSrc_amd_one_page none s)
      (fun s => by simpa using filterMap_imgSrc_amd_one_page (some tp) s)
      cards]
  congr 1
  simpa using flatten_chunks cards_per_page_amd
    (amd_num_pages cards.length) cards
    (by unfold amd_num_pages cards_per_page_amd; omega)

theorem plain_images_amd_cards (cards : List String) (tp : String) :
    plain_images (amd_cards cards tp) =
      cards ++ if cards.length = 0 then [] else List.replicate 5 tp := by
  unfold plain_images
  rw [filterMap_amd_cards _ tp (fun s => s) (List.replicate 5 tp)
      (fun s => by simpa using filterMap_plain_amd_one_page none s)
      (fun s => by simpa using filterMap_plain_amd_one_page (some tp) s)
      cards]
  congr 1
  simpa using flatten_chunks cards_per_page_amd
    (amd_num_pages cards.length) cards
    (by unfold amd_num_pages cards_per_page_amd; omega)

theorem mirrored_images_amd_cards (cards : List String) (tp : String) :
    mirrored_images (amd_cards cards tp) =
      if cards.length = 0 then [] else List.replicate 5 tp := by
  unfold mirrored_images
  rw [filterMap_amd_cards _ tp (fun _ => []) (List.replicate 5 tp)
      (fun s => by simpa using filterMap_mirrored_amd_one_page none s)
      (fun s => by simpa using filterMap_mirrored_amd_one_page (some tp) s)
      cards]
  rw [flatten_nil_map]
  rfl

theorem plain_images_ability_cards (a4 bl : Bool) (ps : List String)
    (back : String) :
    plain_images (ability_cards a4 bl ps back) =
      (ability_card_pages a4 bl ps).flatMap
        (fun pg => pg ++ List.replicate pg.length back) := by
  unfold ability_cards plain_images
  rw [List.filterMap_flatMap]
  apply List.flatMap_congr
  intro pg _
  rw [List.filterMap_append]
  unfold ability_cards_one_page
  rw [List.filterMap_append, List.filterMap_append]
  have h1 := plain_images_ability_page_body a4 bl pg
  have h2 := plain_images_ability_page_body a4 bl
    (List.replicate pg.length back)
  unfold plain_images at h1 h2
  rw [h1, h2]
  simp

theorem mirrored_images_ability_cards (a4 bl : Bool) (ps : List String)
    (back : String) :
    mirrored_images (ability_cards a4 bl ps back) = [] := by
  unfold ability_cards mirrored_images
  rw [List.filterMap_flatMap]
  have h : (ability_card_pages a4 bl ps).flatMap (fun pg =>
      List.filterMap
        (fun t => match t with | Tex.mirrored _ p => some p | _ => none)
        (ability_cards_one_page a4 bl pg
          ++ ability_cards_one_page a4 bl
              (List.replicate pg.length back))) =
      (ability_card_pages a4 bl ps).flatMap
        (fun _ => ([] : List String)) := by
    apply List.flatMap_congr
    intro pg _
    rw [List.filterMap_append]
    unfold ability_cards_one_page
    rw [List.filterMap_append, List.filterMap_append]
    have h1 := mirrored_images_ability_page_body a4 bl pg
    have h2 := mirrored_images_ability_page_body a4 bl
      (List.replicate pg.length back)
    unfold mirrored_images at h1 h2
    rw [h1, h2]
    rfl
  rw [h, List.flatMap_def, flatten_nil_map]

theorem mem_image_paths_iff (p : String) (d : List Tex) :
    p ∈ image_paths d ↔ p ∈ plain_images d ∨ p ∈ mirrored_images d := by
  simp only [image_paths, plain_images, mirrored_images, List.mem_filterMap]
  constructor
  · rintro ⟨t, ht, hsrc⟩
    cases t with
    | img o q =>
      left
      exact ⟨Tex.img o q, ht, by simpa [imgSrc] using hsrc⟩
    | mirrored o q =>
      right
      exact ⟨Tex.mirrored o q, ht, by simpa [imgSrc] using hsrc⟩
    | text s => simp [imgSrc] at hsrc
    | clearpage => simp [imgSrc] at hsrc
  · rintro (⟨t, ht, hsrc⟩ | ⟨t, ht, hsrc⟩) <;>
      exact ⟨t, ht, by cases t <;> simp_all [imgSrc]⟩

/-! ## Shared helper lemmas for the claims -/

theorem mem_ability_card_pages_subset (a4 bl : Bool) (ps : List String)
    (pg : List String) (h : pg ∈ ability_card_pages a4 bl ps) : pg ⊆ ps := by
  rcases List.mem_map.mp h with ⟨i, _, rfl⟩
  intro x hx
  exact List.drop_subset _ _ (List.take_subset _ _ hx)

theorem all_amd_cards_eq (env : Env) :
    all_amd_cards env =
      (amd_front_paths env).map sanitize_path
        ++ (non_amd_front_paths env).map sanitize_path
        ++ List.replicate (amd_front_paths env).length
            (sanitize_path (resolve_asset env.fs env.root "amd_back"))
        ++ List.replicate (non_amd_front_paths env).length
            (sanitize_path (resolve_asset env.fs env.root "non_amd_back")) := by
  unfold all_amd_cards
  simp only [List.map_append, List.map_map, Function.comp_def]
  rw [List.map_const', List.map_const']
  simp [List.append_assoc]

theorem length_all_amd_cards (env : Env) :
    (all_amd_cards env).length =
      2 * ((amd_front_paths env).length + (non_amd_front_paths env).length) := by
  rw [all_amd_cards_eq]
  simp
  ring

theorem images_of_eq_nil (tp : String) (d : List Tex)
    (h : tp ∉ image_paths d) : images_of tp d = [] := by
  rw [images_of, List.filter_eq_nil_iff]
  intro t ht hpred
  apply h
  rw [image_paths, List.mem_filterMap]
  exact ⟨t, ht, of_decide_eq_true hpred⟩

/-! ## C1: ability-card pagination -/

/-- C1 counterexample: with A4 paper and bleed the capacity is 8, yet 8
ability cards produce 2 front pages instead of ceil(8/8) = 1, and the
second page is fully empty; the pagination loop runs
`len // capacity + 1` times, not a ceiling division. -/
theorem C1_counterexample :
    (ability_card_pages true true
        ["c1", "c2", "c3", "c4", "c5", "c6", "c7", "c8"]).length ≠
      (8 + 2 * cards_per_line true true - 1) / (2 * cards_per_line true true)
    ∧ [] ∈ ability_card_pages true true
        ["c1", "c2", "c3", "c4", "c5", "c6", "c7", "c8"] := by
  decide

/-- C1 (amended): the ability-card pagination splits the N cards at
capacity C = 2 * cards_per_line (cards_per_line = 4, or 3 when the paper is
US-Letter and bleed is set) into N / C + 1 front pages (floor division plus
one, not a ceiling): every page before the last holds exactly C cards, the
last page holds the remaining N mod C cards and is fully empty exactly when
C divides N, and concatenating the pages returns the original sequence, so
no card is dropped or duplicated. -/
theorem C1_ability_pagination (a4 bl : Bool) (ps : List String) :
    (ability_card_pages a4 bl ps).length =
        ps.length / (2 * cards_per_line a4 bl) + 1
    ∧ (ability_card_pages a4 bl ps).flatten = ps
    ∧ (∀ i, i < ps.length / (2 * cards_per_line a4 bl) →
        ((ability_card_pages a4 bl ps).getD i []).length =
          2 * cards_per_line a4 bl)
    ∧ ((ability_card_pages a4 bl ps).getD
          (ps.length / (2 * cards_per_line a4 bl)) []).length =
        ps.length % (2 * cards_per_line a4 bl)
    ∧ cards_per_line a4 bl = (if a4 = false ∧ bl = true then 3 else 4) := by
  have hC : 0 < 2 * cards_per_line a4 bl := by
    unfold cards_per_line
    split <;> omega
  have hdm := Nat.div_add_mod ps.length (2 * cards_per_line a4 bl)
  have hmod := Nat.mod_lt ps.length hC
  refine ⟨?_, ?_, ?_, ?_, ?_⟩
  · simp [ability_card_pages]
  · apply flatten_chunks
    rw [Nat.mul_succ]
    omega
  · intro i hi
    unfold ability_card_pages
    rw [List.getD_eq_getElem _ _ (by simp; omega), List.getElem_map,
        List.getElem_range]
    rw [List.length_take, List.length_drop]
    have hmul : 2 * cards_per_line a4 bl * i + 2 * cards_per_line a4 bl ≤
        2 * cards_per_line a4 bl *
          (ps.length / (2 * cards_per_line a4 bl)) := by
      rw [← Nat.mul_succ]
      exact Nat.mul_le_mul_left _ (by omega)
    omega
  · unfold ability_card_pages
    rw [List.getD_eq_getElem _ _ (by simp), List.getElem_map,
        List.getElem_range]
    rw [List.length_take, List.length_drop]
    omega
  · cases a4 <;> cases bl <;> rfl

/-- C1 witness: a concrete instance of the per-page length clause. -/
theorem C1_ability_pagination_witness :
    (0 : Nat) < 7 / (2 * cards_per_line false true)
    ∧ ((ability_card_pages false true
          ["a", "b", "c", "d", "e", "f", "g"]).getD 0 []).length =
        2 * cards_per_line false true :=
  ⟨by decide,
   (C1_ability_pagination false true
      ["a", "b", "c", "d", "e", "f", "g"]).2.2.1 0 (by decide)⟩

/-! ## C5: back pages mirror front pages -/

/-- C5: the ability-card section splits at page breaks into alternating
front/back page contents, one back page directly after each front page:
the page list is exactly, for each card slice, the front-page body of the
slice followed by the body of the shared back plate repeated once per card
of that slice (plus the empty trailing chunk after the final page break);
the images of a front page are exactly its slice, the images of its back
page are the back plate repeated exactly that many times, and the number
of back pages equals the number of front pages. -/
theorem C5_back_pages (a4 bl : Bool) (ps : List String) (back : String) :
    texPages (ability_cards a4 bl ps back) =
      (ability_card_pages a4 bl ps).flatMap (fun pg =>
        [ability_page_body a4 bl pg,
         ability_page_body a4 bl (List.replicate pg.length back)]) ++ [[]]
    ∧ (∀ pg : List String, image_paths (ability_page_body a4 bl pg) = pg)
    ∧ (∀ pg : List String,
        image_paths (ability_page_body a4 bl (List.replicate pg.length back))
          = List.replicate pg.length back)
    ∧ (texPages (ability_cards a4 bl ps back)).length =
        2 * (ability_card_pages a4 bl ps).length + 1
    ∧ (ability_card_pages a4 bl ps).length =
        ps.length / (2 * cards_per_line a4 bl) + 1 := by
  refine ⟨texPages_ability_cards a4 bl ps back,
    fun pg => image_paths_ability_page_body a4 bl pg,
    fun pg => image_paths_ability_page_body a4 bl _, ?_, ?_⟩
  · rw [texPages_ability_cards]
    rw [List.length_append, List.length_flatMap]
    have hmap : (ability_card_pages a4 bl ps).map
        (List.length ∘ fun pg =>
          [ability_page_body a4 bl pg,
           ability_page_body a4 bl (List.replicate pg.length back)]) =
        (ability_card_pages a4 bl ps).map (fun _ => 2) := by
      apply List.map_congr_left
      intro pg _
      rfl
    rw [hmap, List.map_const', List.sum_replicate, smul_eq_mul]
    simp [Nat.mul_comm]
  · simp [ability_card_pages]

/-! ## C7: fixed document structure -/

set_option maxRecDepth 4000 in
/-- C7: the generated document is always the header (which selects
a4paper or letterpaper by the A4 flag, sets landscape orientation and
suppresses page numbering), then the ability-card section, the
AMD-category section, the character mat/mini section, the character-sheet
section, and the document end, in this order, whatever the category
contents are. -/
theorem C7_document_structure (env : Env) :
    generate_latex_file env =
      [Tex.text (header env.is_a4)]
        ++ ability_cards env.is_a4 env.has_bleed (card_paths env)
            (ability_back_path env)
        ++ amd_cards (all_amd_cards env) (token_path env)
        ++ character_mat (mat_path env) (mat_back_path env) (mini_path env)
        ++ character_sheet (sheet_path env)
        ++ [Tex.text end_document]
    ∧ header env.is_a4 =
        "\\documentclass[12pt,"
          ++ (if env.is_a4 then "a4paper" else "letterpaper") ++ header_tail
    ∧ "landscape".data <:+: (header env.is_a4).data
    ∧ "\\pagenumbering\x7bgobble\x7d".data <:+: (header env.is_a4).data
    ∧ (if env.is_a4 then "a4paper" else "letterpaper").data <:+:
        (header env.is_a4).data := by
  refine ⟨rfl, rfl, ?_, ?_, ?_⟩ <;> cases env.is_a4 <;> decide

/-! ## C3: AMD-category pagination drops nothing -/

/-- C3: the AMD-category flat sequence handed to the paginator is all AMD
fronts then all NON_AMD fronts, each category paired 1:1 with its own
back plate; removing the appended character-token images, the images
emitted across all AMD-category pages are exactly that flat sequence, in
order — nothing is dropped or duplicated — and its length is 2*(N+M).
An empty sub-category simply contributes nothing. -/
theorem C3_amd_total_images (env : Env)
    (h : token_path env ∉ all_amd_cards env) :
    (image_paths (amd_cards (all_amd_cards env) (token_path env))).filter
        (fun p => decide (p ≠ token_path env)) = all_amd_cards env
    ∧ (all_amd_cards env).length =
        2 * ((amd_front_paths env).length + (non_amd_front_paths env).length)
    ∧ all_amd_cards env =
        (amd_front_paths env).map sanitize_path
          ++ (non_amd_front_paths env).map sanitize_path
          ++ List.replicate (amd_front_paths env).length
              (sanitize_path (resolve_asset env.fs env.root "amd_back"))
          ++ List.replicate (non_amd_front_paths env).length
              (sanitize_path (resolve_asset env.fs env.root "non_amd_back")) := by
  refine ⟨?_, length_all_amd_cards env, all_amd_cards_eq env⟩
  rw [image_paths_amd_cards, List.filter_append]
  have h1 : (all_amd_cards env).filter
      (fun p => decide (p ≠ token_path env)) = all_amd_cards env := by
    rw [List.filter_eq_self]
    intro a ha
    simp only [decide_eq_true_eq]
    intro hEq
    exact h (hEq ▸ ha)
  have h2 : (if (all_amd_cards env).length = 0 then []
        else List.replicate 10 (token_path env)).filter
      (fun p => decide (p ≠ token_path env)) = [] := by
    split
    · rfl
    · rw [List.filter_eq_nil_iff]
      intro a ha
      rw [List.eq_of_mem_replicate ha]
      simp
  rw [h1, h2, List.append_nil]

/-- C3 witness: one AMD card, no NON_AMD card, every asset present. -/
theorem C3_amd_total_images_witness :
    (token_path
        ⟨(fun _ => true), "r", [], [], ["r/AMD/m.jpg"], [], [], [], true,
          true⟩ ∉
      all_amd_cards
        ⟨(fun _ => true), "r", [], [], ["r/AMD/m.jpg"], [], [], [], true,
          true⟩)
    ∧ (all_amd_cards
          ⟨(fun _ => true), "r", [], [], ["r/AMD/m.jpg"], [], [], [], true,
            true⟩).length = 2 * (1 + 0) :=
  ⟨by decide,
   by
    have hx := (C3_amd_total_images
      ⟨(fun _ => true), "r", [], [], ["r/AMD/m.jpg"], [], [], [], true,
        true⟩ (by decide)).2.1
    rw [hx]
    decide⟩

/-! ## C10: shape of the flat AMD-category sequence -/

/-- C10 counterexample: with a single AMD card and no NON_AMD card the
flat sequence is exactly the front directly followed by its own (1:1
paired) back plate — the back IS adjacent to its own front, refuting the
never-adjacent clause of the claim. -/
theorem C10_counterexample :
    all_amd_cards
        ⟨(fun _ => true), "r", [], [], ["r/AMD/card.jpg"], [], [], [], true,
          true⟩ =
      ["r/AMD/card.jpg", "r/amd_back.jpg"] := by decide

/-- C10 (amended): the flat AMD-category sequence is all sorted AMD
fronts, then all sorted NON_AMD fronts, then N copies of the AMD back
plate, then M copies of the NON_AMD back plate (all sanitised), so all
front images precede all back images and a single page can mix fronts and
backs; whenever N+M is at least 2, the back paired with a front (the back
at position N+M+j for the front at position j) is never adjacent to it —
with a single card only (N+M = 1) the back plate directly follows its
front. -/
theorem C10_flat_sequence (env : Env) :
    all_amd_cards env =
        (amd_front_paths env).map sanitize_path
          ++ (non_amd_front_paths env).map sanitize_path
          ++ List.replicate (amd_front_paths env).length
              (sanitize_path (resolve_asset env.fs env.root "amd_back"))
          ++ List.replicate (non_amd_front_paths env).length
              (sanitize_path (resolve_asset env.fs env.root "non_amd_back"))
    ∧ (2 ≤ (amd_front_paths env).length + (non_amd_front_paths env).length →
        ∀ j, j < (amd_front_paths env).length +
            (non_amd_front_paths env).length →
          ((amd_front_paths env).length + (non_amd_front_paths env).length
              + j) ≠ j + 1
          ∧ j ≠ ((amd_front_paths env).length +
              (non_amd_front_paths env).length + j) + 1)
    ∧ (amd_card_pages
          (all_amd_cards
            ⟨(fun _ => true), "r", [], [], ["r/AMD/card.jpg"], [], [], [],
              true, true⟩)).getD 0 [] =
        ["r/AMD/card.jpg", "r/amd_back.jpg"] := by
  refine ⟨all_amd_cards_eq env, ?_, by decide⟩
  intro h2 j hj
  omega

/-- C10 witness: two AMD cards, so fronts and paired backs are two
positions apart. -/
theorem C10_flat_sequence_witness :
    (2 ≤ (amd_front_paths
          ⟨(fun _ => true), "r", [], [], ["r/AMD/a.jpg", "r/AMD/b.jpg"], [],
            [], [], true, true⟩).length +
        (non_amd_front_paths
          ⟨(fun _ => true), "r", [], [], ["r/AMD/a.jpg", "r/AMD/b.jpg"], [],
            [], [], true, true⟩).length)
    ∧ ((amd_front_paths
          ⟨(fun _ => true), "r", [], [], ["r/AMD/a.jpg", "r/AMD/b.jpg"], [],
            [], [], true, true⟩).length +
        (non_amd_front_paths
          ⟨(fun _ => true), "r", [], [], ["r/AMD/a.jpg", "r/AMD/b.jpg"], [],
            [], [], true, true⟩).length + 0) ≠ 0 + 1 :=
  ⟨by decide,
   ((C10_flat_sequence
      ⟨(fun _ => true), "r", [], [], ["r/AMD/a.jpg", "r/AMD/b.jpg"], [],
        [], [], true, true⟩).2.1 (by decide) 0 (by decide)).1⟩

theorem not_mem_image_paths_ability (a4 bl : Bool) (ps : List String)
    (back p : String) (hp : p ∉ ps) (hb : p ≠ back) :
    p ∉ image_paths (ability_cards a4 bl ps back) := by
  intro hmem
  rcases (mem_image_paths_iff p _).mp hmem with h | h
  · rw [plain_images_ability_cards] at h
    rcases List.mem_flatMap.mp h with ⟨pg, hpg, hin⟩
    rcases List.mem_append.mp hin with h' | h'
    · exact hp (mem_ability_card_pages_subset _ _ _ _ hpg h')
    · exact hb (List.eq_of_mem_replicate h')
  · rw [mirrored_images_ability_cards] at h
    cases h

/-! ## C9: no AMD pages means no character tokens anywhere -/

/-- C9: when both the AMD and the NON_AMD category are empty, the
AMD-category section is empty (zero pages) and the character-token image
appears nowhere in the generated document, even though the token asset is
always resolved. -/
theorem C9_no_tokens (env : Env)
    (ha1 : env.amd_jpg = []) (ha2 : env.amd_png = [])
    (hb1 : env.non_amd_jpg = []) (hb2 : env.non_amd_png = [])
    (h1 : token_path env ∉ card_paths env)
    (h2 : token_path env ≠ ability_back_path env)
    (h3 : token_path env ≠ mat_path env)
    (h4 : token_path env ≠ mat_back_path env)
    (h5 : token_path env ≠ mini_path env)
    (h6 : token_path env ≠ sheet_path env) :
    amd_cards (all_amd_cards env) (token_path env) = []
    ∧ token_path env ∉ image_paths (generate_latex_file env) := by
  have hflat : all_amd_cards env = [] := by
    unfold all_amd_cards amd_front_paths non_amd_front_paths
    rw [ha1, ha2, hb1, hb2]
    rfl
  have hamd : amd_cards (all_amd_cards env) (token_path env) = [] := by
    rw [hflat]
    rfl
  refine ⟨hamd, ?_⟩
  intro hmem
  unfold generate_latex_file at hmem
  rw [hamd] at hmem
  simp only [image_paths_append, image_paths_text,
    image_paths_character_mat, image_paths_character_sheet,
    List.append_nil, List.nil_append] at hmem
  rcases List.mem_append.mp hmem with hAM | hS
  · rcases List.mem_append.mp hAM with hA | hM
    · exact not_mem_image_paths_ability env.is_a4 env.has_bleed
        (card_paths env) (ability_back_path env) (token_path env) h1 h2 hA
    · simp only [List.mem_cons, List.not_mem_nil, or_false] at hM
      rcases hM with h | h | h | h
      · exact h3 h
      · exact h5 h
      · exact h4 h
      · exact h5 h
  · simp only [List.mem_cons, List.not_mem_nil, or_false] at hS
    rcases hS with h | h | h | h <;> exact h6 h

/-- C9 witness: empty AMD and NON_AMD folders, one ability card. -/
theorem C9_no_tokens_witness :
    (token_path
        ⟨(fun _ => true), "r", ["r/AbilityCards/a.jpg"], [], [], [], [], [],
          true, true⟩ ∉
      card_paths
        ⟨(fun _ => true), "r", ["r/AbilityCards/a.jpg"], [], [], [], [], [],
          true, true⟩)
    ∧ amd_cards
        (all_amd_cards
          ⟨(fun _ => true), "r", ["r/AbilityCards/a.jpg"], [], [], [], [],
            [], true, true⟩)
        (token_path
          ⟨(fun _ => true), "r", ["r/AbilityCards/a.jpg"], [], [], [], [],
            [], true, true⟩) = [] :=
  ⟨by decide,
   (C9_no_tokens
      ⟨(fun _ => true), "r", ["r/AbilityCards/a.jpg"], [], [], [], [], [],
        true, true⟩
      rfl rfl rfl rfl (by decide) (by decide) (by decide) (by decide)
      (by decide) (by decide)).1⟩

theorem image_paths_amd_enum_segment (rot : Bool) (ps : List String) :
    image_paths (ps.enum.flatMap (fun ip =>
      [Tex.img ((if rot then "angle=90, " else "") ++ "width=4.4cm") ip.2]
        ++ (if ip.1 ≠ ps.length - 1 ∧ ip.1 ≠ 4 then
              [Tex.text hspace_sep] else [])
        ++ (if ip.1 = 4 then [Tex.text row_break] else []))) = ps := by
  unfold image_paths
  rw [List.filterMap_flatMap]
  have h : ps.enum.flatMap (fun ip => List.filterMap imgSrc
      ([Tex.img ((if rot then "angle=90, " else "") ++ "width=4.4cm") ip.2]
        ++ (if ip.1 ≠ ps.length - 1 ∧ ip.1 ≠ 4 then
              [Tex.text hspace_sep] else [])
        ++ (if ip.1 = 4 then [Tex.text row_break] else []))) =
      ps.enum.flatMap (fun ip => [ip.2]) := by
    apply List.flatMap_congr
    intro ip _
    rw [List.filterMap_append, List.filterMap_append,
        filterMap_text_ite _ (fun _ => rfl), filterMap_text_ite _ (fun _ => rfl)]
    rfl
  rw [h, flatMap_singleton_map, List.enum_map_snd]

theorem images_of_token_row (tp : String) :
    images_of tp ([Tex.text token_row_begin]
      ++ (List.range 5).flatMap (fun i =>
          [Tex.img "width=1.45cm" tp, Tex.text hspace_sep,
           Tex.mirrored "width=1.45cm" tp]
            ++ (if i ≠ 9 then [Tex.text hspace_sep] else []))) =
      (List.range 5).flatMap (fun _ =>
        [Tex.img "width=1.45cm" tp, Tex.mirrored "width=1.45cm" tp]) := by
  rw [show List.range 5 = [0, 1, 2, 3, 4] from by decide]
  simp [images_of, imgSrc, List.filter_append, List.filter_cons]

theorem images_of_amd_page_body_some (s : List String) (tp : String)
    (h : tp ∉ s) :
    images_of tp (amd_page_body rotate_amd_cards s (some tp)) =
      (List.range 5).flatMap (fun _ =>
        [Tex.img "width=1.45cm" tp, Tex.mirrored "width=1.45cm" tp]) := by
  have hseg : images_of tp (s.enum.flatMap (fun ip =>
      [Tex.img ((if rotate_amd_cards then "angle=90, " else "")
          ++ "width=4.4cm") ip.2]
        ++ (if ip.1 ≠ s.length - 1 ∧ ip.1 ≠ 4 then
              [Tex.text hspace_sep] else [])
        ++ (if ip.1 = 4 then [Tex.text row_break] else []))) = [] := by
    apply images_of_eq_nil
    rw [image_paths_amd_enum_segment]
    exact h
  have htok := images_of_token_row tp
  simp only [amd_page_body]
  unfold images_of at hseg htok ⊢
  rw [List.filter_append, List.filter_append, List.filter_append,
      hseg, htok]
  rfl

/-! ## C4: character tokens exactly on the final AMD page -/

/-- C4: when the AMD-category emits at least one page, the pages split at
page breaks so that every page before the last shows no character-token
image at all, and the last page shows exactly 10 token images: 5 pairs of
the token image directly followed by its horizontally mirrored copy — full
or not. -/
theorem C4_tokens_last_page (cards : List String) (tp : String)
    (hne : cards ≠ []) (htp : tp ∉ cards) :
    (texPages (amd_cards cards tp)).length = amd_num_pages cards.length + 1
    ∧ 1 ≤ amd_num_pages cards.length
    ∧ (∀ i, i < amd_num_pages cards.length - 1 →
        images_of tp ((texPages (amd_cards cards tp)).getD i []) = [])
    ∧ images_of tp ((texPages (amd_cards cards tp)).getD
          (amd_num_pages cards.length - 1) []) =
        (List.range 5).flatMap (fun _ =>
          [Tex.img "width=1.45cm" tp, Tex.mirrored "width=1.45cm" tp]) := by
  have hn : cards.length ≠ 0 := by
    intro h
    exact hne (List.eq_nil_of_length_eq_zero h)
  have hnum : 1 ≤ amd_num_pages cards.length := by
    unfold amd_num_pages cards_per_page_amd
    omega
  have hgd : ∀ i, i < amd_num_pages cards.length →
      (texPages (amd_cards cards tp)).getD i [] =
        (if i ≠ amd_num_pages cards.length - 1 then
          amd_page_body rotate_amd_cards
            ((cards.drop (cards_per_page_amd * i)).take cards_per_page_amd)
            none
        else
          amd_page_body rotate_amd_cards
            ((cards.drop (cards_per_page_amd * i)).take cards_per_page_amd)
            (some tp)) := by
    intro i hi
    rw [texPages_amd_cards]
    rw [List.getD_eq_getElem _ _ (by simp; omega)]
    rw [List.getElem_append_left (by simp [hi])]
    rw [List.getElem_map, List.getElem_range]
  refine ⟨?_, hnum, ?_, ?_⟩
  · rw [texPages_amd_cards]
    simp
  · intro i hi
    rw [hgd i (by omega), if_pos (by omega)]
    apply images_of_eq_nil
    intro hmem
    rw [image_paths_amd_page_body] at hmem
    simp only [List.append_nil] at hmem
    exact htp (List.drop_subset _ _ (List.take_subset _ _ hmem))
  · rw [hgd _ (by omega), if_neg (by omega)]
    apply images_of_amd_page_body_some
    intro hmem
    exact htp (List.drop_subset _ _ (List.take_subset _ _ hmem))

/-- C4 witness: a single AMD-category card. -/
theorem C4_tokens_last_page_witness :
    (["m1"] : List String) ≠ []
    ∧ "tok" ∉ (["m1"] : List String)
    ∧ images_of "tok" ((texPages (amd_cards ["m1"] "tok")).getD
          (amd_num_pages (["m1"] : List String).length - 1) []) =
        (List.range 5).flatMap (fun _ =>
          [Tex.img "width=1.45cm" "tok",
           Tex.mirrored "width=1.45cm" "tok"]) :=
  ⟨by decide, by decide,
   (C4_tokens_last_page ["m1"] "tok" (by decide) (by decide)).2.2.2⟩

/-! ## C6: eager validation of the root directory -/

theorem infix_of_split (pat lit root : String) (pre mid : List Char)
    (hsplit : lit.data = pre ++ pat.data ++ mid) :
    pat.data <:+: (lit ++ root).data := by
  refine ⟨pre, mid ++ root.data, ?_⟩
  rw [String.data_append, hsplit]
  simp [List.append_assoc]

theorem check_singletons_error (fs : String → Bool) (root : String)
    (names : List String)
    (h : names.filter (fun name =>
        !fs (root ++ "/" ++ name ++ ".jpg")
          && !fs (root ++ "/" ++ name ++ ".png")) ≠ []) :
    ∃ e, check_singletons fs root names = Except.error e
      ∧ ((names.filter (fun name =>
            !fs (root ++ "/" ++ name ++ ".jpg")
              && !fs (root ++ "/" ++ name ++ ".png"))).headD "").data <:+:
          e.data := by
  induction names with
  | nil => exact absurd rfl h
  | cons n rest ih =>
    by_cases hmiss : (!fs (root ++ "/" ++ n ++ ".jpg")
        && !fs (root ++ "/" ++ n ++ ".png")) = true
    · refine ⟨"Missing file " ++ n ++ " (JPG or PNG format) in " ++ root,
        ?_, ?_⟩
      · unfold check_singletons
        rw [if_pos hmiss]
      · rw [List.filter_cons, if_pos hmiss]
        simp only [List.headD_cons]
        refine ⟨"Missing file ".data,
          (" (JPG or PNG format) in " ++ root).data, ?_⟩
        rw [String.data_append, String.data_append, String.data_append,
            String.data_append]
        simp [List.append_assoc]
    · rw [List.filter_cons, if_neg hmiss] at h ⊢
      rcases ih h with ⟨e, he, hinf⟩
      refine ⟨e, ?_, hinf⟩
      unfold check_singletons
      rw [if_neg hmiss]
      exact he

/-- C6: if the AbilityCards folder, the AMD folder, or any of the eight
singleton assets (under both extensions) is absent, construction fails
with an error whose message names the first missing folder or file, the
check running before any layout work, and no document is produced. -/
theorem C6_validation (env : Env)
    (h : missing_assets env.fs env.root ≠ []) :
    ∃ e, run_generator env = Except.error e
      ∧ ((missing_assets env.fs env.root).headD "").data <:+: e.data
      ∧ ∀ d, run_generator env ≠ Except.ok d := by
  have main : ∃ e, check_root_dir_consistency env.fs env.root =
        Except.error e
      ∧ ((missing_assets env.fs env.root).headD "").data <:+: e.data := by
    unfold missing_assets at h ⊢
    by_cases hab : env.fs (env.root ++ "/AbilityCards") = true
    · by_cases hamd : env.fs (env.root ++ "/AMD") = true
      · rw [if_pos hab, if_pos hamd] at h ⊢
        simp only [List.nil_append] at h ⊢
        rcases check_singletons_error env.fs env.root singleton_assets h
          with ⟨e, he, hinf⟩
        refine ⟨e, ?_, hinf⟩
        unfold check_root_dir_consistency
        rw [if_neg (by simp [hab]), if_neg (by simp [hamd])]
        exact he
      · have hf : env.fs (env.root ++ "/AMD") = false :=
          Bool.eq_false_iff.mpr hamd
        rw [if_pos hab, if_neg hamd] at h ⊢
        refine ⟨"Missing folder with the name AMD in " ++ env.root, ?_, ?_⟩
        · unfold check_root_dir_consistency
          rw [if_neg (by simp [hab]), if_pos (by simp [hf])]
        · simp only [List.nil_append, List.headD_cons]
          exact infix_of_split "AMD" "Missing folder with the name AMD in "
            env.root "Missing folder with the name ".data " in ".data
            (by decide)
    · have hf : env.fs (env.root ++ "/AbilityCards") = false :=
        Bool.eq_false_iff.mpr hab
      rw [if_neg hab] at h ⊢
      refine ⟨"Missing folder with the name AbilityCards in " ++ env.root,
        ?_, ?_⟩
      · unfold check_root_dir_consistency
        rw [if_pos (by simp [hf])]
      · simp only [List.cons_append, List.headD_cons]
        exact infix_of_split "AbilityCards"
          "Missing folder with the name AbilityCards in " env.root
          "Missing folder with the name ".data " in ".data (by decide)
  rcases main with ⟨e, he, hinf⟩
  refine ⟨e, ?_, hinf, ?_⟩
  · unfold run_generator
    rw [he]
  · intro d
    unfold run_generator
    rw [he]
    simp

/-- C6 witness: an empty filesystem is missing everything; the error
names AbilityCards, the first item checked. -/
theorem C6_validation_witness :
    missing_assets (fun _ => false) "r" ≠ []
    ∧ ∃ e, run_generator
          ⟨(fun _ => false), "r", [], [], [], [], [], [], true, true⟩ =
        Except.error e
      ∧ ((missing_assets (fun _ => false) "r").headD "").data <:+: e.data
      ∧ ∀ d, run_generator
            ⟨(fun _ => false), "r", [], [], [], [], [], [], true, true⟩ ≠
          Except.ok d :=
  ⟨by decide,
   C6_validation ⟨(fun _ => false), "r", [], [], [], [], [], [], true, true⟩
     (by decide)⟩

/-! ## C8: deterministic sorted order within each category -/

/-- C8: within each card category the fronts are embedded in
code-point-lexicographic order of their file paths: the ability-card
sequence is the sorted listing (sanitised), its page slices concatenate
back to it, the AMD-category flat sequence opens with the sorted AMD
fronts then the sorted NON_AMD fronts, and sorting is invariant under
permutation of the raw directory listing, so the output is deterministic. -/
theorem C8_sorted_order (env : Env) :
    card_paths env =
        (sort_paths (env.ability_jpg ++ env.ability_png)).map sanitize_path
    ∧ List.Sorted StrLe (sort_paths (env.ability_jpg ++ env.ability_png))
    ∧ List.Sorted StrLe (amd_front_paths env)
    ∧ List.Sorted StrLe (non_amd_front_paths env)
    ∧ (ability_card_pages env.is_a4 env.has_bleed (card_paths env)).flatten =
        card_paths env
    ∧ all_amd_cards env =
        (amd_front_paths env).map sanitize_path
          ++ (non_amd_front_paths env).map sanitize_path
          ++ List.replicate (amd_front_paths env).length
              (sanitize_path (resolve_asset env.fs env.root "amd_back"))
          ++ List.replicate (non_amd_front_paths env).length
              (sanitize_path (resolve_asset env.fs env.root "non_amd_back"))
    ∧ (∀ l₁ l₂ : List String, l₁.Perm l₂ → sort_paths l₁ = sort_paths l₂)
    ∧ (sort_paths (env.ability_jpg ++ env.ability_png)).Perm
        (env.ability_jpg ++ env.ability_png) := by
  have hC : 0 < 2 * cards_per_line env.is_a4 env.has_bleed := by
    unfold cards_per_line
    split <;> omega
  refine ⟨rfl, List.sorted_insertionSort StrLe _,
    List.sorted_insertionSort StrLe _, List.sorted_insertionSort StrLe _,
    ?_, all_amd_cards_eq env, ?_, List.perm_insertionSort StrLe _⟩
  · apply flatten_chunks
    have hdm := Nat.div_add_mod (card_paths env).length
      (2 * cards_per_line env.is_a4 env.has_bleed)
    have hmod := Nat.mod_lt (card_paths env).length hC
    rw [Nat.mul_succ]
    omega
  · intro l₁ l₂ hperm
    apply List.eq_of_perm_of_sorted (r := StrLe)
    · exact ((List.perm_insertionSort StrLe l₁).trans hperm).trans
        (List.perm_insertionSort StrLe l₂).symm
    · exact List.sorted_insertionSort StrLe l₁
    · exact List.sorted_insertionSort StrLe l₂

/-- C8 witness: two listings of the same files in different order sort to
the same sequence. -/
theorem C8_sorted_order_witness :
    (["r/AbilityCards/b.jpg", "r/AbilityCards/a.jpg"] : List String).Perm
        ["r/AbilityCards/a.jpg", "r/AbilityCards/b.jpg"]
    ∧ sort_paths ["r/AbilityCards/b.jpg", "r/AbilityCards/a.jpg"] =
        sort_paths ["r/AbilityCards/a.jpg", "r/AbilityCards/b.jpg"] :=
  ⟨by decide,
   (C8_sorted_order
      ⟨(fun _ => true), "r", [], [], [], [], [], [], true, true⟩).2.2.2.2.2.2.1
     ["r/AbilityCards/b.jpg", "r/AbilityCards/a.jpg"]
     ["r/AbilityCards/a.jpg", "r/AbilityCards/b.jpg"] (by decide)⟩

/-! ## C2: the fixed character pages -/

theorem plain_images_text (s : String) : plain_images [Tex.text s] = [] :=
  rfl

theorem mirrored_images_text (s : String) :
    mirrored_images [Tex.text s] = [] := rfl

theorem plain_images_nil : plain_images [] = [] := rfl

theorem mirrored_images_nil : mirrored_images [] = [] := rfl

theorem plain_images_cons_text (s : String) (d : List Tex) :
    plain_images (Tex.text s :: d) = plain_images d := rfl

theorem mirrored_images_cons_text (s : String) (d : List Tex) :
    mirrored_images (Tex.text s :: d) = mirrored_images d := rfl

/-- A path that cannot collide with any card image or category back plate
of the run. -/
def fresh_path (env : Env) (p : String) : Prop :=
  p ∉ card_paths env ∧ p ≠ ability_back_path env
    ∧ p ∉ all_amd_cards env ∧ p ≠ token_path env

/-- C2 counterexample: on a valid input directory with empty card folders
the character-sheet image is embedded four times (the sheet page shows it
twice and the whole page is emitted twice), not exactly twice as claimed. -/
theorem C2_counterexample :
    (plain_images (generate_latex_file
        ⟨(fun _ => true), "r", [], [], [], [], [], [], true, true⟩)).count
        (sheet_path
          ⟨(fun _ => true), "r", [], [], [], [], [], [], true, true⟩) = 4
    ∧ (plain_images (generate_latex_file
        ⟨(fun _ => true), "r", [], [], [], [], [], [], true, true⟩)).count
        (sheet_path
          ⟨(fun _ => true), "r", [], [], [], [], [], [], true, true⟩) ≠ 2 := by
  decide

/-- C2 (amended): for every valid input (the five singleton paths distinct
from each other and from all card images, back plates and the token), the
document contains exactly one mat-front image, one mat-back image, one
character-mini image in normal placement, one horizontally mirrored
character-mini image — and the character-sheet image exactly FOUR times
(twice per sheet page, the sheet page being emitted twice), not twice. -/
theorem C2_character_counts (env : Env)
    (h1 : fresh_path env (mat_path env))
    (h2 : fresh_path env (mat_back_path env))
    (h3 : fresh_path env (mini_path env))
    (h4 : fresh_path env (sheet_path env))
    (h5 : mat_path env ≠ mat_back_path env)
    (h6 : mat_path env ≠ mini_path env)
    (h7 : mat_path env ≠ sheet_path env)
    (h8 : mat_back_path env ≠ mini_path env)
    (h9 : mat_back_path env ≠ sheet_path env)
    (h10 : mini_path env ≠ sheet_path env) :
    (plain_images (generate_latex_file env)).count (mat_path env) = 1
    ∧ (plain_images (generate_latex_file env)).count (mat_back_path env) = 1
    ∧ (plain_images (generate_latex_file env)).count (mini_path env) = 1
    ∧ (mirrored_images (generate_latex_file env)).count (mini_path env) = 1
    ∧ (plain_images (generate_latex_file env)).count (sheet_path env) = 4 := by
  have hplain : plain_images (generate_latex_file env) =
      plain_images (ability_cards env.is_a4 env.has_bleed (card_paths env)
          (ability_back_path env))
        ++ (plain_images (amd_cards (all_amd_cards env) (token_path env))
        ++ [mat_path env, mini_path env, mat_back_path env, sheet_path env,
            sheet_path env, sheet_path env, sheet_path env]) := by
    unfold generate_latex_file
    simp only [plain_images_append, plain_images_text,
      plain_images_cons_text, plain_images_nil, plain_images_character_mat,
      plain_images_character_sheet, List.nil_append, List.append_nil,
      List.append_assoc]
    rfl
  have hmir : mirrored_images (generate_latex_file env) =
      (if (all_amd_cards env).length = 0 then []
        else List.replicate 5 (token_path env)) ++ [mini_path env] := by
    unfold generate_latex_file
    simp only [mirrored_images_append, mirrored_images_text,
      mirrored_images_cons_text, mirrored_images_nil,
      mirrored_images_character_mat, mirrored_images_character_sheet,
      mirrored_images_ability_cards, mirrored_images_amd_cards,
      List.nil_append, List.append_nil, List.append_assoc]
  have hab0 : ∀ p, p ∉ card_paths env → p ≠ ability_back_path env →
      (plain_images (ability_cards env.is_a4 env.has_bleed (card_paths env)
          (ability_back_path env))).count p = 0 := by
    intro p hp hb
    exact List.count_eq_zero.mpr (fun hm =>
      not_mem_image_paths_ability env.is_a4 env.has_bleed (card_paths env)
        (ability_back_path env) p hp hb
        ((mem_image_paths_iff p _).mpr (Or.inl hm)))
  have hamd0 : ∀ p, p ∉ all_amd_cards env → p ≠ token_path env →
      (plain_images (amd_cards (all_amd_cards env)
          (token_path env))).count p = 0 := by
    intro p hp htp
    rw [plain_images_amd_cards, List.count_append,
        List.count_eq_zero.mpr hp]
    have hrep : (if (all_amd_cards env).length = 0 then []
        else List.replicate 5 (token_path env)).count p = 0 := by
      split
      · rfl
      · exact List.count_eq_zero.mpr (fun hc =>
          htp (List.eq_of_mem_replicate hc))
    rw [hrep]
  have hrep0 : ∀ p, p ≠ token_path env →
      (if (all_amd_cards env).length = 0 then []
        else List.replicate 5 (token_path env)).count p = 0 := by
    intro p htp
    split
    · rfl
    · exact List.count_eq_zero.mpr (fun hc =>
        htp (List.eq_of_mem_replicate hc))
  refine ⟨?_, ?_, ?_, ?_, ?_⟩
  · rw [hplain, List.count_append, List.count_append,
        hab0 _ h1.1 h1.2.1, hamd0 _ h1.2.2.1 h1.2.2.2,
        List.count_cons_self,
        List.count_cons_of_ne h6, List.count_cons_of_ne h5,
        List.count_cons_of_ne h7, List.count_cons_of_ne h7,
        List.count_cons_of_ne h7, List.count_cons_of_ne h7,
        List.count_nil]
  · rw [hplain, List.count_append, List.count_append,
        hab0 _ h2.1 h2.2.1, hamd0 _ h2.2.2.1 h2.2.2.2,
        List.count_cons_of_ne (Ne.symm h5),
        List.count_cons_of_ne h8, List.count_cons_self,
        List.count_cons_of_ne h9, List.count_cons_of_ne h9,
        List.count_cons_of_ne h9, List.count_cons_of_ne h9,
        List.count_nil]
  · rw [hplain, List.count_append, List.count_append,
        hab0 _ h3.1 h3.2.1, hamd0 _ h3.2.2.1 h3.2.2.2,
        List.count_cons_of_ne (Ne.symm h6), List.count_cons_self,
        List.count_cons_of_ne (Ne.symm h8),
        List.count_cons_of_ne h10, List.count_cons_of_ne h10,
        List.count_cons_of_ne h10, List.count_cons_of_ne h10,
        List.count_nil]
  · rw [hmir, List.count_append, hrep0 _ h3.2.2.2,
        List.count_cons_self, List.count_nil]
  · rw [hplain, List.count_append, List.count_append,
        hab0 _ h4.1 h4.2.1, hamd0 _ h4.2.2.1 h4.2.2.2,
        List.count_cons_of_ne (Ne.symm h7),
        List.count_cons_of_ne (Ne.symm h10),
        List.count_cons_of_ne (Ne.symm h9),
        List.count_cons_self, List.count_cons_self,
        List.count_cons_self, List.count_cons_self, List.count_nil]

/-- C2 witness: a concrete root directory with one ability card and one
AMD card; all asset paths are pairwise distinct. -/
theorem C2_character_counts_witness :
    fresh_path
        ⟨(fun _ => true), "r", ["r/AbilityCards/a.jpg"], [],
          ["r/AMD/m.jpg"], [], [], [], true, true⟩
        (sheet_path
          ⟨(fun _ => true), "r", ["r/AbilityCards/a.jpg"], [],
            ["r/AMD/m.jpg"], [], [], [], true, true⟩)
    ∧ (plain_images (generate_latex_file
          ⟨(fun _ => true), "r", ["r/AbilityCards/a.jpg"], [],
            ["r/AMD/m.jpg"], [], [], [], true, true⟩)).count
        (sheet_path
          ⟨(fun _ => true), "r", ["r/AbilityCards/a.jpg"], [],
            ["r/AMD/m.jpg"], [], [], [], true, true⟩) = 4 :=
  ⟨by constructor
      · decide
      · refine ⟨by decide, by decide, by decide⟩,
   (C2_character_counts
      ⟨(fun _ => true), "r", ["r/AbilityCards/a.jpg"], [],
        ["r/AMD/m.jpg"], [], [], [], true, true⟩
      ⟨by decide, by decide, by decide, by decide⟩
      ⟨by decide, by decide, by decide, by decide⟩
      ⟨by decide, by decide, by decide, by decide⟩
      ⟨by decide, by decide, by decide, by decide⟩
      (by decide) (by decide) (by decide) (by decide) (by decide)
      (by decide)).2.2.2.2⟩
